import Mathlib

/-!
# Verification of the DevToolBox static-analysis core

Shallow embedding of `src/utils/ast_parser.py` (`PythonASTParser`) and
`src/utils/complexity_analyzer.py` (`ComplexityAnalyzer`).

Python AST nodes are dynamically typed; we mirror them with an inductive
`Py` whose constructors correspond to the `ast` node classes the extractor
and the analyzer dispatch on.  Lists and options of nodes are represented
by the mutually inductive `PyL`, `PyO`, `PyOL` (so that decidable equality
can be derived).  Field order of each constructor follows the CPython
`ast` grammar, so that `children` (our `ast.iter_child_nodes`) and `walk`
(our `ast.walk`, breadth-first) visit nodes in the same order as CPython.
Leaf helper nodes that carry no information used by the code under
analysis (`expr_context` such as `Load`/`Store`, operator nodes such as
`Add`/`And`/`Gt`) are omitted from `children`: they are childless and
match none of the `isinstance` tests in the sources, so no metric, filter
or ordering is affected.

Line numbers are carried on the nodes where the extractor reads them.
A `boolOp` node always has at least two operands (`v1`, `v2`, `rest`),
exactly as trees produced by `ast.parse` do.
-/

namespace DevToolBox

/-- Literal constants (`ast.Constant`). -/
inductive Const where
  | int (n : Int)
  | str (s : String)
  | noneC
  | boolC (b : Bool)
  deriving DecidableEq

mutual

/-- Python AST nodes: one constructor per `ast` node class that occurs in
the extractor or the analyzer. -/
inductive Py where
  -- module
  | module (body : PyL)
  -- statements
  | functionDef (name : String) (args : Py) (body : PyL)
      (decorator_list : PyL) (returns : PyO)
      (lineno : Nat) (end_lineno : Option Nat)
  | asyncFunctionDef (name : String) (args : Py) (body : PyL)
      (decorator_list : PyL) (returns : PyO)
      (lineno : Nat) (end_lineno : Option Nat)
  | classDef (name : String) (bases : PyL) (body : PyL)
      (decorator_list : PyL) (lineno : Nat) (end_lineno : Option Nat)
  | ret (value : PyO)
  | assign (targets : PyL) (value : Py) (lineno : Nat)
  | annAssign (target : Py) (anno : Py) (value : PyO) (lineno : Nat)
  | ifStmt (test : Py) (body : PyL) (orelse : PyL)
  | whileStmt (test : Py) (body : PyL) (orelse : PyL)
  | forStmt (target : Py) (iter : Py) (body : PyL) (orelse : PyL)
  | asyncForStmt (target : Py) (iter : Py) (body : PyL) (orelse : PyL)
  | withStmt (items : PyL) (body : PyL)
  | asyncWithStmt (items : PyL) (body : PyL)
  | tryStmt (body : PyL) (handlers : PyL) (orelse : PyL) (finalbody : PyL)
  | exceptHandler (body : PyL)
  | assertStmt (test : Py) (msg : PyO)
  | importStmt (names : PyL) (lineno : Nat)
  | importFrom (module : Option String) (names : PyL) (lineno : Nat)
  | exprStmt (value : Py)
  | passStmt
  -- expressions
  | name (id : String)
  | constant (v : Const)
  | boolOp (op : String) (v1 : Py) (v2 : Py) (rest : PyL)
  | binOp (left : Py) (op : String) (right : Py)
  | compare (left : Py) (comparators : PyL)
  | call (func : Py) (args : PyL)
  | attributeE (value : Py) (attr : String)
  | lambdaE (args : Py) (body : Py)
  | listComp (elt : Py) (generators : PyL)
  | setComp (elt : Py) (generators : PyL)
  | dictComp (key : Py) (value : Py) (generators : PyL)
  | generatorExp (elt : Py) (generators : PyL)
  | comprehension (target : Py) (iter : Py) (ifs : PyL)
  -- auxiliary nodes
  | argumentsNode (args : PyL) (vararg : PyO) (kwonlyargs : PyL)
      (kw_defaults : PyOL) (kwarg : PyO) (defaults : PyL)
  | argNode (arg : String) (anno : PyO)
  | aliasNode (aname : String) (asname : Option String)
  | withItem (context_expr : Py) (optional_vars : PyO)

/-- A list of AST nodes. -/
inductive PyL where
  | nil
  | cons (hd : Py) (tl : PyL)

/-- An optional AST node. -/
inductive PyO where
  | none
  | some (x : Py)

/-- A list of optional AST nodes (`kw_defaults`). -/
inductive PyOL where
  | nil
  | cons (hd : PyO) (tl : PyOL)

end

set_option maxHeartbeats 4000000 in
deriving instance DecidableEq for Py, PyL, PyO, PyOL

/-- Convert an embedded node list to a Lean list. -/
def PyL.toL : PyL → List Py
  | .nil => []
  | .cons h t => h :: t.toL

/-- Convert a Lean list to an embedded node list. -/
def pyl : List Py → PyL
  | [] => .nil
  | h :: t => .cons h (pyl t)

/-- Convert an embedded optional node to a Lean option. -/
def PyO.toO : PyO → Option Py
  | .none => Option.none
  | .some x => Option.some x

/-- Convert an embedded list of optional nodes to a Lean list. -/
def PyOL.toL : PyOL → List (Option Py)
  | .nil => []
  | .cons h t => h.toO :: t.toL

@[simp] theorem PyL.toL_nil : PyL.nil.toL = [] := rfl
@[simp] theorem PyL.toL_cons (h : Py) (t : PyL) :
    (PyL.cons h t).toL = h :: t.toL := rfl
@[simp] theorem pyl_nil : pyl [] = .nil := rfl
@[simp] theorem pyl_cons (h : Py) (t : List Py) :
    pyl (h :: t) = .cons h (pyl t) := rfl
@[simp] theorem toL_pyl (l : List Py) : (pyl l).toL = l := by
  induction l with
  | nil => rfl
  | cons h t ih => simp [pyl, PyL.toL, ih]

/-- Model of `ast.iter_child_nodes`: the direct child nodes of a node, in the field
order of the CPython grammar (items that are `None` are skipped, as
`iter_child_nodes` skips non-AST values). -/
def children : Py → List Py
  | .module body => body.toL
  | .functionDef _ args body decs returns _ _ =>
      args :: body.toL ++ decs.toL ++ returns.toO.toList
  | .asyncFunctionDef _ args body decs returns _ _ =>
      args :: body.toL ++ decs.toL ++ returns.toO.toList
  | .classDef _ bases body decs _ _ => bases.toL ++ body.toL ++ decs.toL
  | .ret value => value.toO.toList
  | .assign targets value _ => targets.toL ++ [value]
  | .annAssign target anno value _ => target :: anno :: value.toO.toList
  | .ifStmt test body orelse => test :: body.toL ++ orelse.toL
  | .whileStmt test body orelse => test :: body.toL ++ orelse.toL
  | .forStmt target iter body orelse =>
      target :: iter :: body.toL ++ orelse.toL
  | .asyncForStmt target iter body orelse =>
      target :: iter :: body.toL ++ orelse.toL
  | .withStmt items body => items.toL ++ body.toL
  | .asyncWithStmt items body => items.toL ++ body.toL
  | .tryStmt body handlers orelse finalbody =>
      body.toL ++ handlers.toL ++ orelse.toL ++ finalbody.toL
  | .exceptHandler body => body.toL
  | .assertStmt test msg => test :: msg.toO.toList
  | .importStmt names _ => names.toL
  | .importFrom _ names _ => names.toL
  | .exprStmt value => [value]
  | .passStmt => []
  | .name _ => []
  | .constant _ => []
  | .boolOp _ v1 v2 rest => v1 :: v2 :: rest.toL
  | .binOp left _ right => [left, right]
  | .compare left comparators => left :: comparators.toL
  | .call func args => func :: args.toL
  | .attributeE value _ => [value]
  | .lambdaE args body => [args, body]
  | .listComp elt gens => elt :: gens.toL
  | .setComp elt gens => elt :: gens.toL
  | .dictComp key value gens => key :: value :: gens.toL
  | .generatorExp elt gens => elt :: gens.toL
  | .comprehension target iter ifs => target :: iter :: ifs.toL
  | .argumentsNode args vararg kwonlyargs kw_defaults kwarg defaults =>
      args.toL ++ vararg.toO.toList ++ kwonlyargs.toL ++
        kw_defaults.toL.reduceOption ++ kwarg.toO.toList ++ defaults.toL
  | .argNode _ anno => anno.toO.toList
  | .aliasNode _ _ => []
  | .withItem context_expr optional_vars =>
      context_expr :: optional_vars.toO.toList

mutual

/-- Number of nodes in a subtree (the measure justifying termination of the
breadth-first walk). -/
def szP : Py → Nat
  | .module body => 1 + szL body
  | .functionDef _ args body decs returns _ _ =>
      1 + szP args + szL body + szL decs + szO returns
  | .asyncFunctionDef _ args body decs returns _ _ =>
      1 + szP args + szL body + szL decs + szO returns
  | .classDef _ bases body decs _ _ => 1 + szL bases + szL body + szL decs
  | .ret value => 1 + szO value
  | .assign targets value _ => 1 + szL targets + szP value
  | .annAssign target anno value _ => 1 + szP target + szP anno + szO value
  | .ifStmt test body orelse => 1 + szP test + szL body + szL orelse
  | .whileStmt test body orelse => 1 + szP test + szL body + szL orelse
  | .forStmt target iter body orelse =>
      1 + szP target + szP iter + szL body + szL orelse
  | .asyncForStmt target iter body orelse =>
      1 + szP target + szP iter + szL body + szL orelse
  | .withStmt items body => 1 + szL items + szL body
  | .asyncWithStmt items body => 1 + szL items + szL body
  | .tryStmt body handlers orelse finalbody =>
      1 + szL body + szL handlers + szL orelse + szL finalbody
  | .exceptHandler body => 1 + szL body
  | .assertStmt test msg => 1 + szP test + szO msg
  | .importStmt names _ => 1 + szL names
  | .importFrom _ names _ => 1 + szL names
  | .exprStmt value => 1 + szP value
  | .passStmt => 1
  | .name _ => 1
  | .constant _ => 1
  | .boolOp _ v1 v2 rest => 1 + szP v1 + szP v2 + szL rest
  | .binOp left _ right => 1 + szP left + szP right
  | .compare left comparators => 1 + szP left + szL comparators
  | .call func args => 1 + szP func + szL args
  | .attributeE value _ => 1 + szP value
  | .lambdaE args body => 1 + szP args + szP body
  | .listComp elt gens => 1 + szP elt + szL gens
  | .setComp elt gens => 1 + szP elt + szL gens
  | .dictComp key value gens => 1 + szP key + szP value + szL gens
  | .generatorExp elt gens => 1 + szP elt + szL gens
  | .comprehension target iter ifs => 1 + szP target + szP iter + szL ifs
  | .argumentsNode args vararg kwonlyargs kw_defaults kwarg defaults =>
      1 + szL args + szO vararg + szL kwonlyargs + szOL kw_defaults +
        szO kwarg + szL defaults
  | .argNode _ anno => 1 + szO anno
  | .aliasNode _ _ => 1
  | .withItem context_expr optional_vars =>
      1 + szP context_expr + szO optional_vars

/-- Total node count of a node list. -/
def szL : PyL → Nat
  | .nil => 0
  | .cons h t => szP h + szL t

/-- Total node count of an optional node. -/
def szO : PyO → Nat
  | .none => 0
  | .some x => szP x

/-- Total node count of a list of optional nodes. -/
def szOL : PyOL → Nat
  | .nil => 0
  | .cons h t => szO h + szOL t

end

/-- Total node count of a Lean-level list of nodes. -/
def szSum (l : List Py) : Nat := (l.map szP).sum

@[simp] theorem szSum_nil : szSum [] = 0 := rfl
@[simp] theorem szSum_cons (p : Py) (l : List Py) :
    szSum (p :: l) = szP p + szSum l := by simp [szSum]
@[simp] theorem szSum_append (a b : List Py) :
    szSum (a ++ b) = szSum a + szSum b := by simp [szSum]

theorem szSum_toL : ∀ l : PyL, szSum l.toL = szL l
  | .nil => rfl
  | .cons h t => by simp [PyL.toL, szL, szSum_toL t]

theorem szSum_toO (o : PyO) : szSum o.toO.toList = szO o := by
  cases o <;> simp [PyO.toO, szO]

theorem szSum_reduceOption : ∀ l : PyOL, szSum l.toL.reduceOption = szOL l
  | .nil => rfl
  | .cons h t => by
    cases h <;>
      simp [PyOL.toL, PyO.toO, szOL, szO, List.reduceOption_cons_of_some,
        List.reduceOption_cons_of_none, szSum_reduceOption t]

/-- Each node counts itself plus its children subtrees. -/
theorem szP_eq_children (p : Py) : szP p = 1 + szSum (children p) := by
  cases p <;>
    simp [children, szP, szSum_toL, szSum_toO, szSum_reduceOption] <;>
    omega

theorem szP_pos (p : Py) : 0 < szP p := by
  rw [szP_eq_children]; omega

theorem szSum_children_lt (p : Py) : szSum (children p) < szP p := by
  rw [szP_eq_children]; omega

/-- Model of `ast.walk` with explicit fuel: pops the queue head, enqueues its
children, yields the head.  With fuel at least the total node count this is
exactly the breadth-first walk (see `walkF_eq_walkW`). -/
def walkF : Nat → List Py → List Py
  | 0, _ => []
  | _ + 1, [] => []
  | fuel + 1, p :: q => p :: walkF fuel (q ++ children p)

/-- Queue-based breadth-first walk (`ast.walk`), the version used in
proofs. -/
def walkW : List Py → List Py
  | [] => []
  | p :: q => p :: walkW (q ++ children p)
termination_by q => szSum q
decreasing_by
  simp only [szSum_append, szSum_cons]
  exact Nat.lt_of_lt_of_le (Nat.add_lt_add_left (szSum_children_lt _) _)
    (Nat.le_of_eq (Nat.add_comm _ _))

@[simp] theorem walkW_nil : walkW [] = [] := by simp [walkW]

theorem walkW_cons (p : Py) (q : List Py) :
    walkW (p :: q) = p :: walkW (q ++ children p) := by
  simp [walkW]

theorem walkF_eq_walkW : ∀ (fuel : Nat) (q : List Py),
    szSum q ≤ fuel → walkF fuel q = walkW q := by
  intro fuel
  induction fuel with
  | zero =>
    intro q h
    cases q with
    | nil => simp [walkF]
    | cons p q' =>
      exfalso
      have := szP_pos p
      simp at h
      omega
  | succ n ih =>
    intro q h
    cases q with
    | nil => simp [walkF]
    | cons p q' =>
      rw [walkF, walkW_cons]
      congr 1
      apply ih
      simp only [szSum_append, szSum_cons] at h ⊢
      have := szSum_children_lt p
      omega

/-- Model of `ast.walk(node)`: breadth-first enumeration of a subtree, executable
(fuel `szP node` always suffices). -/
def walk (p : Py) : List Py := walkF (szP p) [p]

theorem walk_eq_walkW (p : Py) : walk p = walkW [p] := by
  apply walkF_eq_walkW
  simp

/-- Length of an embedded node list. -/
def lenL : PyL → Nat
  | .nil => 0
  | .cons _ t => 1 + lenL t

/-- Append on embedded node lists. -/
def PyL.append : PyL → PyL → PyL
  | .nil, y => y
  | .cons h t, y => .cons h (t.append y)

@[simp] theorem toL_append : ∀ x y : PyL, (x.append y).toL = x.toL ++ y.toL
  | .nil, y => rfl
  | .cons h t, y => by simp [PyL.append, PyL.toL, toL_append t y]

/-!
## Complexity analyzer (`src/utils/complexity_analyzer.py`)

`_cyclomatic_complexity`, `_count_branches` and `_count_loops` all iterate
`ast.walk(node)` and add a per-node contribution; a sum over the
breadth-first enumeration of a subtree is the sum of the contribution over
the subtree, which `subSum` computes by structural recursion (the
traversal order of a pure sum is irrelevant).
-/

mutual

/-- Sum of a per-node contribution `f` over a whole subtree (the node
itself and every descendant), as `for child in ast.walk(node)` does. -/
def subSum (f : Py → Nat) (p : Py) : Nat :=
  f p +
    match p with
    | .module body => subSumL f body
    | .functionDef _ args body decs returns _ _ =>
        subSum f args + subSumL f body + subSumL f decs + subSumO f returns
    | .asyncFunctionDef _ args body decs returns _ _ =>
        subSum f args + subSumL f body + subSumL f decs + subSumO f returns
    | .classDef _ bases body decs _ _ =>
        subSumL f bases + subSumL f body + subSumL f decs
    | .ret value => subSumO f value
    | .assign targets value _ => subSumL f targets + subSum f value
    | .annAssign target anno value _ =>
        subSum f target + subSum f anno + subSumO f value
    | .ifStmt test body orelse =>
        subSum f test + subSumL f body + subSumL f orelse
    | .whileStmt test body orelse =>
        subSum f test + subSumL f body + subSumL f orelse
    | .forStmt target iter body orelse =>
        subSum f target + subSum f iter + subSumL f body + subSumL f orelse
    | .asyncForStmt target iter body orelse =>
        subSum f target + subSum f iter + subSumL f body + subSumL f orelse
    | .withStmt items body => subSumL f items + subSumL f body
    | .asyncWithStmt items body => subSumL f items + subSumL f body
    | .tryStmt body handlers orelse finalbody =>
        subSumL f body + subSumL f handlers + subSumL f orelse +
          subSumL f finalbody
    | .exceptHandler body => subSumL f body
    | .assertStmt test msg => subSum f test + subSumO f msg
    | .importStmt names _ => subSumL f names
    | .importFrom _ names _ => subSumL f names
    | .exprStmt value => subSum f value
    | .passStmt => 0
    | .name _ => 0
    | .constant _ => 0
    | .boolOp _ v1 v2 rest => subSum f v1 + subSum f v2 + subSumL f rest
    | .binOp left _ right => subSum f left + subSum f right
    | .compare left comparators => subSum f left + subSumL f comparators
    | .call func args => subSum f func + subSumL f args
    | .attributeE value _ => subSum f value
    | .lambdaE args body => subSum f args + subSum f body
    | .listComp elt gens => subSum f elt + subSumL f gens
    | .setComp elt gens => subSum f elt + subSumL f gens
    | .dictComp key value gens =>
        subSum f key + subSum f value + subSumL f gens
    | .generatorExp elt gens => subSum f elt + subSumL f gens
    | .comprehension target iter ifs =>
        subSum f target + subSum f iter + subSumL f ifs
    | .argumentsNode args vararg kwonlyargs kw_defaults kwarg defaults =>
        subSumL f args + subSumO f vararg + subSumL f kwonlyargs +
          subSumOL f kw_defaults + subSumO f kwarg + subSumL f defaults
    | .argNode _ anno => subSumO f anno
    | .aliasNode _ _ => 0
    | .withItem context_expr optional_vars =>
        subSum f context_expr + subSumO f optional_vars

/-- The sum `subSum` over a node list. -/
def subSumL (f : Py → Nat) : PyL → Nat
  | .nil => 0
  | .cons h t => subSum f h + subSumL f t

/-- The sum `subSum` over an optional node. -/
def subSumO (f : Py → Nat) : PyO → Nat
  | .none => 0
  | .some x => subSum f x

/-- The sum `subSum` over a list of optional nodes. -/
def subSumOL (f : Py → Nat) : PyOL → Nat
  | .nil => 0
  | .cons h t => subSumO f h + subSumOL f t

end

/-- Per-node contribution to McCabe cyclomatic complexity
(the `isinstance` chain of `_cyclomatic_complexity`). -/
def cycContrib : Py → Nat
  | .ifStmt _ _ _ => 1
  | .whileStmt _ _ _ => 1
  | .forStmt _ _ _ _ => 1
  | .asyncForStmt _ _ _ _ => 1
  | .exceptHandler _ => 1
  | .withStmt _ _ => 1
  | .asyncWithStmt _ _ => 1
  | .assertStmt _ _ => 1
  | .boolOp _ _ _ rest => 1 + lenL rest
  | .listComp _ _ => 1
  | .dictComp _ _ _ => 1
  | .setComp _ _ => 1
  | .generatorExp _ _ => 1
  | _ => 0

/-- Model of `ComplexityAnalyzer._cyclomatic_complexity`: base complexity 1 plus one
per decision point in the subtree (a `BoolOp` with `k` operands counts
`k - 1`). -/
def cyclomatic_complexity (node : Py) : Nat := 1 + subSum cycContrib node

/-- Per-node contribution to `_count_branches`. -/
def branchContrib : Py → Nat
  | .ifStmt _ _ _ => 1
  | .forStmt _ _ _ _ => 1
  | .whileStmt _ _ _ => 1
  | .asyncForStmt _ _ _ _ => 1
  | .tryStmt _ _ _ _ => 1
  | .withStmt _ _ => 1
  | .asyncWithStmt _ _ => 1
  | .exceptHandler _ => 1
  | _ => 0

/-- Model of `ComplexityAnalyzer._count_branches`. -/
def count_branches (node : Py) : Nat := subSum branchContrib node

/-- Per-node contribution to `_count_loops`. -/
def loopContrib : Py → Nat
  | .forStmt _ _ _ _ => 1
  | .whileStmt _ _ _ => 1
  | .asyncForStmt _ _ _ _ => 1
  | .listComp _ _ => 1
  | .dictComp _ _ _ => 1
  | .setComp _ _ => 1
  | .generatorExp _ _ => 1
  | _ => 0

/-- Model of `ComplexityAnalyzer._count_loops`. -/
def count_loops (node : Py) : Nat := subSum loopContrib node

/-!
Cognitive complexity (`_cognitive_complexity_recursive`): for each direct
child, an increment that depends on the child kind and the current nesting
level, followed by a recursive call at a possibly deeper nesting level.
-/

/-- The `increment` assigned to one child at nesting level `lvl`. -/
def cogInc (c : Py) (lvl : Nat) : Nat :=
  match c with
  | .ifStmt _ _ _ => 1 + lvl
  | .whileStmt _ _ _ => 1 + lvl
  | .forStmt _ _ _ _ => 1 + lvl
  | .asyncForStmt _ _ _ _ => 1 + lvl
  | .exceptHandler _ => 1 + lvl
  | .withStmt _ _ => 1 + lvl
  | .asyncWithStmt _ _ => 1 + lvl
  | .boolOp _ _ _ rest => 1 + lenL rest
  | .listComp _ _ => 1
  | .dictComp _ _ _ => 1
  | .setComp _ _ => 1
  | .generatorExp _ _ => 1
  | .lambdaE _ _ => 1
  | _ => 0

/-- The `new_nesting` level used when recursing into one child. -/
def cogNew (c : Py) (lvl : Nat) : Nat :=
  match c with
  | .ifStmt _ _ _ => lvl + 1
  | .whileStmt _ _ _ => lvl + 1
  | .forStmt _ _ _ _ => lvl + 1
  | .asyncForStmt _ _ _ _ => lvl + 1
  | .exceptHandler _ => lvl + 1
  | .withStmt _ _ => lvl + 1
  | .asyncWithStmt _ _ => lvl + 1
  | _ => lvl

mutual

/-- Model of `_cognitive_complexity_recursive(node, nesting_level)`: sum, over the
direct children, of the child increment plus the recursive value of the
child at its new nesting level. -/
def cogP (p : Py) (lvl : Nat) : Nat :=
  match p with
  | .module body => cogL body lvl
  | .functionDef _ args body decs returns _ _ =>
      (cogInc args lvl + cogP args (cogNew args lvl)) + cogL body lvl +
        cogL decs lvl + cogO returns lvl
  | .asyncFunctionDef _ args body decs returns _ _ =>
      (cogInc args lvl + cogP args (cogNew args lvl)) + cogL body lvl +
        cogL decs lvl + cogO returns lvl
  | .classDef _ bases body decs _ _ =>
      cogL bases lvl + cogL body lvl + cogL decs lvl
  | .ret value => cogO value lvl
  | .assign targets value _ =>
      cogL targets lvl + (cogInc value lvl + cogP value (cogNew value lvl))
  | .annAssign target anno value _ =>
      (cogInc target lvl + cogP target (cogNew target lvl)) +
        (cogInc anno lvl + cogP anno (cogNew anno lvl)) + cogO value lvl
  | .ifStmt test body orelse =>
      (cogInc test lvl + cogP test (cogNew test lvl)) + cogL body lvl +
        cogL orelse lvl
  | .whileStmt test body orelse =>
      (cogInc test lvl + cogP test (cogNew test lvl)) + cogL body lvl +
        cogL orelse lvl
  | .forStmt target iter body orelse =>
      (cogInc target lvl + cogP target (cogNew target lvl)) +
        (cogInc iter lvl + cogP iter (cogNew iter lvl)) + cogL body lvl +
        cogL orelse lvl
  | .asyncForStmt target iter body orelse =>
      (cogInc target lvl + cogP target (cogNew target lvl)) +
        (cogInc iter lvl + cogP iter (cogNew iter lvl)) + cogL body lvl +
        cogL orelse lvl
  | .withStmt items body => cogL items lvl + cogL body lvl
  | .asyncWithStmt items body => cogL items lvl + cogL body lvl
  | .tryStmt body handlers orelse finalbody =>
      cogL body lvl + cogL handlers lvl + cogL orelse lvl +
        cogL finalbody lvl
  | .exceptHandler body => cogL body lvl
  | .assertStmt test msg =>
      (cogInc test lvl + cogP test (cogNew test lvl)) + cogO msg lvl
  | .importStmt names _ => cogL names lvl
  | .importFrom _ names _ => cogL names lvl
  | .exprStmt value => cogInc value lvl + cogP value (cogNew value lvl)
  | .passStmt => 0
  | .name _ => 0
  | .constant _ => 0
  | .boolOp _ v1 v2 rest =>
      (cogInc v1 lvl + cogP v1 (cogNew v1 lvl)) +
        (cogInc v2 lvl + cogP v2 (cogNew v2 lvl)) + cogL rest lvl
  | .binOp left _ right =>
      (cogInc left lvl + cogP left (cogNew left lvl)) +
        (cogInc right lvl + cogP right (cogNew right lvl))
  | .compare left comparators =>
      (cogInc left lvl + cogP left (cogNew left lvl)) + cogL comparators lvl
  | .call func args =>
      (cogInc func lvl + cogP func (cogNew func lvl)) + cogL args lvl
  | .attributeE value _ => cogInc value lvl + cogP value (cogNew value lvl)
  | .lambdaE args body =>
      (cogInc args lvl + cogP args (cogNew args lvl)) +
        (cogInc body lvl + cogP body (cogNew body lvl))
  | .listComp elt gens =>
      (cogInc elt lvl + cogP elt (cogNew elt lvl)) + cogL gens lvl
  | .setComp elt gens =>
      (cogInc elt lvl + cogP elt (cogNew elt lvl)) + cogL gens lvl
  | .dictComp key value gens =>
      (cogInc key lvl + cogP key (cogNew key lvl)) +
        (cogInc value lvl + cogP value (cogNew value lvl)) + cogL gens lvl
  | .generatorExp elt gens =>
      (cogInc elt lvl + cogP elt (cogNew elt lvl)) + cogL gens lvl
  | .comprehension target iter ifs =>
      (cogInc target lvl + cogP target (cogNew target lvl)) +
        (cogInc iter lvl + cogP iter (cogNew iter lvl)) + cogL ifs lvl
  | .argumentsNode args vararg kwonlyargs kw_defaults kwarg defaults =>
      cogL args lvl + cogO vararg lvl + cogL kwonlyargs lvl +
        cogOL kw_defaults lvl + cogO kwarg lvl + cogL defaults lvl
  | .argNode _ anno => cogO anno lvl
  | .aliasNode _ _ => 0
  | .withItem context_expr optional_vars =>
      (cogInc context_expr lvl +
          cogP context_expr (cogNew context_expr lvl)) +
        cogO optional_vars lvl

/-- Cognitive walk over a child list. -/
def cogL (l : PyL) (lvl : Nat) : Nat :=
  match l with
  | .nil => 0
  | .cons h t => (cogInc h lvl + cogP h (cogNew h lvl)) + cogL t lvl

/-- Cognitive walk over an optional child. -/
def cogO (o : PyO) (lvl : Nat) : Nat :=
  match o with
  | .none => 0
  | .some x => cogInc x lvl + cogP x (cogNew x lvl)

/-- Cognitive walk over a list of optional children. -/
def cogOL (l : PyOL) (lvl : Nat) : Nat :=
  match l with
  | .nil => 0
  | .cons h t => cogO h lvl + cogOL t lvl

end

/-- Model of `ComplexityAnalyzer._cognitive_complexity`. -/
def cognitive_complexity (node : Py) : Nat := cogP node 0

/-- The `new_depth` used when descending into one child of
`_nesting_depth_recursive` (handlers of the listed kinds deepen). -/
def nestNew (c : Py) (d : Nat) : Nat :=
  match c with
  | .ifStmt _ _ _ => d + 1
  | .whileStmt _ _ _ => d + 1
  | .forStmt _ _ _ _ => d + 1
  | .asyncForStmt _ _ _ _ => d + 1
  | .withStmt _ _ => d + 1
  | .asyncWithStmt _ _ => d + 1
  | .tryStmt _ _ _ _ => d + 1
  | .functionDef _ _ _ _ _ _ _ => d + 1
  | .asyncFunctionDef _ _ _ _ _ _ _ => d + 1
  | .classDef _ _ _ _ _ _ => d + 1
  | _ => d

mutual

/-- Model of `_nesting_depth_recursive(node, current_depth)`: the maximum of the
current depth and the recursive values of the children, each entered at
its own `new_depth`. -/
def nestP (p : Py) (d : Nat) : Nat :=
  match p with
  | .module body => nestL body d
  | .functionDef _ args body decs returns _ _ =>
      max (nestP args (nestNew args d))
        (max (nestL body d) (max (nestL decs d) (nestO returns d)))
  | .asyncFunctionDef _ args body decs returns _ _ =>
      max (nestP args (nestNew args d))
        (max (nestL body d) (max (nestL decs d) (nestO returns d)))
  | .classDef _ bases body decs _ _ =>
      max (nestL bases d) (max (nestL body d) (nestL decs d))
  | .ret value => nestO value d
  | .assign targets value _ =>
      max (nestL targets d) (nestP value (nestNew value d))
  | .annAssign target anno value _ =>
      max (nestP target (nestNew target d))
        (max (nestP anno (nestNew anno d)) (nestO value d))
  | .ifStmt test body orelse =>
      max (nestP test (nestNew test d))
        (max (nestL body d) (nestL orelse d))
  | .whileStmt test body orelse =>
      max (nestP test (nestNew test d))
        (max (nestL body d) (nestL orelse d))
  | .forStmt target iter body orelse =>
      max (nestP target (nestNew target d))
        (max (nestP iter (nestNew iter d))
          (max (nestL body d) (nestL orelse d)))
  | .asyncForStmt target iter body orelse =>
      max (nestP target (nestNew target d))
        (max (nestP iter (nestNew iter d))
          (max (nestL body d) (nestL orelse d)))
  | .withStmt items body => max (nestL items d) (nestL body d)
  | .asyncWithStmt items body => max (nestL items d) (nestL body d)
  | .tryStmt body handlers orelse finalbody =>
      max (nestL body d)
        (max (nestL handlers d) (max (nestL orelse d) (nestL finalbody d)))
  | .exceptHandler body => nestL body d
  | .assertStmt test msg =>
      max (nestP test (nestNew test d)) (nestO msg d)
  | .importStmt names _ => nestL names d
  | .importFrom _ names _ => nestL names d
  | .exprStmt value => nestP value (nestNew value d)
  | .passStmt => d
  | .name _ => d
  | .constant _ => d
  | .boolOp _ v1 v2 rest =>
      max (nestP v1 (nestNew v1 d))
        (max (nestP v2 (nestNew v2 d)) (nestL rest d))
  | .binOp left _ right =>
      max (nestP left (nestNew left d)) (nestP right (nestNew right d))
  | .compare left comparators =>
      max (nestP left (nestNew left d)) (nestL comparators d)
  | .call func args =>
      max (nestP func (nestNew func d)) (nestL args d)
  | .attributeE value _ => nestP value (nestNew value d)
  | .lambdaE args body =>
      max (nestP args (nestNew args d)) (nestP body (nestNew body d))
  | .listComp elt gens =>
      max (nestP elt (nestNew elt d)) (nestL gens d)
  | .setComp elt gens =>
      max (nestP elt (nestNew elt d)) (nestL gens d)
  | .dictComp key value gens =>
      max (nestP key (nestNew key d))
        (max (nestP value (nestNew value d)) (nestL gens d))
  | .generatorExp elt gens =>
      max (nestP elt (nestNew elt d)) (nestL gens d)
  | .comprehension target iter ifs =>
      max (nestP target (nestNew target d))
        (max (nestP iter (nestNew iter d)) (nestL ifs d))
  | .argumentsNode args vararg kwonlyargs kw_defaults kwarg defaults =>
      max (nestL args d)
        (max (nestO vararg d)
          (max (nestL kwonlyargs d)
            (max (nestOL kw_defaults d)
              (max (nestO kwarg d) (nestL defaults d)))))
  | .argNode _ anno => nestO anno d
  | .aliasNode _ _ => d
  | .withItem context_expr optional_vars =>
      max (nestP context_expr (nestNew context_expr d))
        (nestO optional_vars d)

/-- Nesting walk over a child list (the running maximum starts at the
current depth). -/
def nestL (l : PyL) (d : Nat) : Nat :=
  match l with
  | .nil => d
  | .cons h t => max (nestP h (nestNew h d)) (nestL t d)

/-- Nesting walk over an optional child. -/
def nestO (o : PyO) (d : Nat) : Nat :=
  match o with
  | .none => d
  | .some x => nestP x (nestNew x d)

/-- Nesting walk over a list of optional children. -/
def nestOL (l : PyOL) (d : Nat) : Nat :=
  match l with
  | .nil => d
  | .cons h t => max (nestO h d) (nestOL t d)

end

/-- Model of `ComplexityAnalyzer._max_nesting_depth`. -/
def max_nesting_depth (node : Py) : Nat := nestP node 0

/-- The record `ComplexityMetrics`: the dictionary produced by
`ComplexityAnalyzer.calculate_complexity`. -/
structure ComplexityMetrics where
  cyclomatic_complexity : Nat
  cognitive_complexity : Nat
  nesting_depth : Nat
  num_branches : Nat
  num_loops : Nat
  deriving DecidableEq

/-- Model of `ComplexityAnalyzer.calculate_complexity`. -/
def calculate_complexity (node : Py) : ComplexityMetrics :=
  { cyclomatic_complexity := cyclomatic_complexity node
    cognitive_complexity := cognitive_complexity node
    nesting_depth := max_nesting_depth node
    num_branches := count_branches node
    num_loops := count_loops node }

/-!
## Metadata extractor (`src/utils/ast_parser.py`)

Record structures mirror the dictionaries built by `PythonASTParser`.
Two renamings forced by Lean lexing: the `annotation` dictionary keys are
called `anno`, and `return_annotation` is called `ret_anno`; the `name`
key of import dictionaries is called `iname` (plain imports, which have no
such key, carry `Option.none`).

`unparse` models `ast.unparse` on the embedded expression constructors.
It is exact on the shapes the extractor renders in the claims under
verification (names, literal constants, attribute chains, calls); shapes
that never reach a rendering position (statements, comparison operators,
lambda parameter lists) are rendered approximately but totally, which is
all the extractor relies on.
-/

/-- A parameter dictionary (`_parse_parameters`). -/
structure ParamRecord where
  name : String
  anno : Option String
  default : Option String
  kind : String
  deriving DecidableEq

/-- A function dictionary (`_parse_function`). -/
structure FunctionRecord where
  name : String
  line_number : Nat
  docstring : Option String
  parameters : List ParamRecord
  ret_anno : Option String
  decorators : List String
  is_async : Bool
  complexity : ComplexityMetrics
  lines_of_code : Nat
  deriving DecidableEq

/-- An attribute dictionary (`_parse_class_attributes`). -/
structure AttributeRecord where
  name : String
  line_number : Nat
  anno : Option String
  deriving DecidableEq

/-- A class dictionary (`_parse_class`). -/
structure ClassRecord where
  name : String
  line_number : Nat
  docstring : Option String
  bases : List String
  decorators : List String
  methods : List FunctionRecord
  attributes : List AttributeRecord
  lines_of_code : Nat
  deriving DecidableEq

/-- An import dictionary (`_parse_import` / `_parse_import_from`). -/
structure ImportRecord where
  kind : String
  module : Option String
  iname : Option String
  asname : Option String
  line_number : Nat
  deriving DecidableEq

/-- The dictionary returned by `parse_code`. -/
structure ParseResult where
  functions : List FunctionRecord
  classes : List ClassRecord
  imports : List ImportRecord
  module_docstring : Option String
  deriving DecidableEq

mutual

/-- Model of `ast.unparse` on embedded expressions (total). -/
def unparse : Py → String
  | .name id => id
  | .constant (.int n) => toString n
  | .constant (.str s) => "\x27" ++ s ++ "\x27"
  | .constant .noneC => "None"
  | .constant (.boolC b) => if b then "True" else "False"
  | .attributeE v a => unparse v ++ "." ++ a
  | .call f args => unparse f ++ "(" ++ unparseArgs args ++ ")"
  | .binOp l op r => unparse l ++ " " ++ op ++ " " ++ unparse r
  | .boolOp op v1 v2 rest =>
      unparse v1 ++ " " ++ op ++ " " ++ unparse v2 ++ unparseTail op rest
  | .compare l comps => unparse l ++ unparseTail "?" comps
  | .lambdaE _ body => "lambda: " ++ unparse body
  | _ => "<node>"

/-- Comma-separated rendering of an argument list. -/
def unparseArgs : PyL → String
  | .nil => ""
  | .cons h .nil => unparse h
  | .cons h (.cons h2 t) => unparse h ++ ", " ++ unparseArgs (.cons h2 t)

/-- Rendering of the remaining operands of a chain. -/
def unparseTail (op : String) : PyL → String
  | .nil => ""
  | .cons h t => " " ++ op ++ " " ++ unparse h ++ unparseTail op t

end

/-- Model of `_parse_annotation`: `None` renders to `None`, otherwise
`ast.unparse`.  (The structural fallback of the source is dead code on
trees coming from `ast.parse`; our `unparse` is total, so extraction
cannot fail here.) -/
def parse_annO : PyO → Option String
  | .none => Option.none
  | .some a => Option.some (unparse a)

/-- Model of `ast.get_docstring` (and `_get_module_docstring`): the leading
string-literal expression of a body, if any.  (Indentation cleaning of
`get_docstring` is not modelled; no claim depends on it.) -/
def get_docstring : PyL → Option String
  | .cons (.exprStmt (.constant (.str s))) _ => Option.some s
  | _ => Option.none

/-- The `arg` field of an `ast.arg` node. -/
def argName : Py → String
  | .argNode nm _ => nm
  | _ => ""

/-- The `annotation` field of an `ast.arg` node. -/
def argAnno : Py → PyO
  | .argNode _ a => a
  | _ => .none

/-- Model of `_parse_parameters`.  Positional defaults are right-aligned:
`defaults` covers the last `len(defaults)` positional parameters
(`defaults_offset = len(args) - len(defaults)`).  Keyword-only defaults
are matched by index in `kw_defaults`, `None` meaning no default.
(On grammar-valid trees every index that is accessed is in range; out of
range indices, which would raise in Python, yield no default here.) -/
def parse_parameters : Py → List ParamRecord
  | .argumentsNode args vararg kwonlyargs kw_defaults kwarg defaults =>
      let argsL := args.toL
      let defaultsL := defaults.toL
      let offset := argsL.length - defaultsL.length
      (argsL.enum.map fun (i, ar) =>
        { name := argName ar
          anno := parse_annO (argAnno ar)
          default :=
            if offset ≤ i then (defaultsL.get? (i - offset)).map unparse
            else Option.none
          kind := "positional" }) ++
      (match vararg with
        | .some v =>
            [{ name := "*" ++ argName v
               anno := parse_annO (argAnno v)
               default := Option.none
               kind := "var_positional" }]
        | .none => []) ++
      (kwonlyargs.toL.enum.map fun (i, ar) =>
        { name := argName ar
          anno := parse_annO (argAnno ar)
          default :=
            match kw_defaults.toL.get? i with
            | Option.some (Option.some d) => Option.some (unparse d)
            | _ => Option.none
          kind := "keyword_only" }) ++
      (match kwarg with
        | .some v =>
            [{ name := "**" ++ argName v
               anno := parse_annO (argAnno v)
               default := Option.none
               kind := "var_keyword" }]
        | .none => [])
  | _ => []

/-- Model of `_count_lines`: `end_lineno - lineno + 1` when an end line is known,
else the fallback estimate `len(body) + 1`. -/
def count_lines (lineno : Nat) (end_lineno : Option Nat) (body : PyL) : Nat :=
  match end_lineno with
  | Option.some e => e - lineno + 1
  | Option.none => lenL body + 1

/-- Model of `_parse_function` (also used for methods).  `is_async` is
`isinstance(node, ast.AsyncFunctionDef)`. -/
def parse_function (node : Py) : FunctionRecord :=
  match node with
  | n@(.functionDef nm args body decs returns ln el) =>
      { name := nm
        line_number := ln
        docstring := get_docstring body
        parameters := parse_parameters args
        ret_anno := parse_annO returns
        decorators := decs.toL.map unparse
        is_async := false
        complexity := calculate_complexity n
        lines_of_code := count_lines ln el body }
  | n@(.asyncFunctionDef nm args body decs returns ln el) =>
      { name := nm
        line_number := ln
        docstring := get_docstring body
        parameters := parse_parameters args
        ret_anno := parse_annO returns
        decorators := decs.toL.map unparse
        is_async := true
        complexity := calculate_complexity n
        lines_of_code := count_lines ln el body }
  | n =>
      { name := ""
        line_number := 0
        docstring := Option.none
        parameters := []
        ret_anno := Option.none
        decorators := []
        is_async := false
        complexity := calculate_complexity n
        lines_of_code := 0 }

/-- Model of `_parse_class_attributes`: one record per assignment target that is a
plain name.  `ast.Assign` nodes have no `annotation` field, so
`getattr` of the missing annotation attribute is `None` and the stored
annotation is always absent. -/
def parse_class_attributes (targets : PyL) (lineno : Nat) :
    List AttributeRecord :=
  targets.toL.filterMap fun t =>
    match t with
    | .name id =>
        Option.some
          { name := id, line_number := lineno, anno := parse_annO .none }
    | _ => Option.none

/-- What one direct class-body statement contributes to the attribute
list: the `elif isinstance(item, ast.Assign)` branch of `_parse_class`
(every other statement kind contributes nothing). -/
def attrsOf : Py → List AttributeRecord
  | .assign targets _ ln2 => parse_class_attributes targets ln2
  | _ => []

/-- Model of `_parse_class`: methods and attributes come only from the direct
statements of the class body. -/
def parse_class (node : Py) : ClassRecord :=
  match node with
  | .classDef nm bases body decs ln el =>
      { name := nm
        line_number := ln
        docstring := get_docstring body
        bases := bases.toL.map unparse
        decorators := decs.toL.map unparse
        methods :=
          body.toL.filterMap fun item =>
            match item with
            | m@(.functionDef _ _ _ _ _ _ _) =>
                Option.some (parse_function m)
            | m@(.asyncFunctionDef _ _ _ _ _ _ _) =>
                Option.some (parse_function m)
            | _ => Option.none
        attributes := body.toL.flatMap attrsOf
        lines_of_code := count_lines ln el body }
  | _ =>
      { name := ""
        line_number := 0
        docstring := Option.none
        bases := []
        decorators := []
        methods := []
        attributes := []
        lines_of_code := 0 }

/-- The `name` field of an `ast.alias` node. -/
def aliasName : Py → String
  | .aliasNode n _ => n
  | _ => ""

/-- The `asname` field of an `ast.alias` node. -/
def aliasAs : Py → Option String
  | .aliasNode _ a => a
  | _ => Option.none

/-- Model of `_parse_import`. -/
def parse_import (names : PyL) (ln : Nat) : List ImportRecord :=
  names.toL.map fun al =>
    { kind := "import"
      module := Option.some (aliasName al)
      iname := Option.none
      asname := aliasAs al
      line_number := ln }

/-- Model of `_parse_import_from`. -/
def parse_import_from (m : Option String) (names : PyL) (ln : Nat) :
    List ImportRecord :=
  names.toL.map fun al =>
    { kind := "from_import"
      module := m
      iname := Option.some (aliasName al)
      asname := aliasAs al
      line_number := ln }

/-- Is this node an `ast.ClassDef`? -/
def isClassDefB : Py → Bool
  | .classDef _ _ _ _ _ _ => true
  | _ => false

/-- Is this node an `ast.FunctionDef`?  (`ast.AsyncFunctionDef` is a
distinct class in CPython and does **not** match this test.) -/
def isFunctionDefB : Py → Bool
  | .functionDef _ _ _ _ _ _ _ => true
  | _ => false

/-- Model of `_is_top_level_function`: scan the whole tree for class-definition
nodes and reject the function if it occurs inside one (CPython compares
by object identity; on trees produced by `ast.parse`, where distinct
definition nodes carry distinct positions, this coincides with structural
equality). -/
def is_top_level_function (tree func_node : Py) : Bool :=
  !((walk tree).any fun n => isClassDefB n && (walk n).contains func_node)

/-- Model of `_get_module_docstring`. -/
def get_module_docstring : Py → Option String
  | .module body => get_docstring body
  | _ => Option.none

/-- What one walked node contributes to the imports list of the result. -/
def importsOf : Py → List ImportRecord
  | .importStmt names ln => parse_import names ln
  | .importFrom m names ln => parse_import_from m names ln
  | _ => []

/-- What one walked node contributes to the classes list of the result. -/
def classOf : Py → Option ClassRecord
  | m@(.classDef _ _ _ _ _ _) => Option.some (parse_class m)
  | _ => Option.none

/-- What one walked node contributes to the functions list of the
result (only `ast.FunctionDef` nodes that pass the top-level filter). -/
def funOf (tree : Py) : Py → Option FunctionRecord
  | m@(.functionDef _ _ _ _ _ _ _) =>
      if is_top_level_function tree m then
        Option.some (parse_function m)
      else Option.none
  | _ => Option.none

/-- The body of `parse_code` after a successful `ast.parse`: one
breadth-first walk over all nodes, collecting imports, top-level
functions and classes in walk order. -/
def extract (tree : Py) : ParseResult :=
  { functions := (walk tree).filterMap (funOf tree)
    classes := (walk tree).filterMap classOf
    imports := (walk tree).flatMap importsOf
    module_docstring := get_module_docstring tree }

/-- The outcome of `ast.parse` on a source text: either a syntax tree or
a `SyntaxError`.  `ast.parse` is CPython library code, not part of this
repository, so a source text is abstracted by its parse outcome. -/
structure SyntaxErr where
  msg : String
  lineno : Nat
  offset : Option Nat
  text : Option String
  deriving DecidableEq

/-- Model of `str(SyntaxError)`: CPython renders the message followed by the file
name (`<unknown>` for `ast.parse`) and the line number; the column offset
and the offending text are not part of it. -/
def SyntaxErr.pyStr (e : SyntaxErr) : String :=
  e.msg ++ " (<unknown>, line " ++ toString e.lineno ++ ")"

/-- A source text, represented by its `ast.parse` outcome. -/
inductive PySource where
  | ok (tree : Py)
  | bad (err : SyntaxErr)
  deriving DecidableEq

/-- Model of `PythonASTParser.parse_code`: the whole body runs inside
`try/except Exception`, re-raising any exception as
`Exception("Failed to parse code: " + str(e))`.  Extraction after a
successful parse is total (every Lean function above is), so the only
failure is the initial `ast.parse` failure. -/
def parse_code : PySource → Except String ParseResult
  | .ok tree => .ok (extract tree)
  | .bad e => .error ("Failed to parse code: " ++ e.pyStr)

/-!
## General lemmas about the embedding
-/

@[simp] theorem lenL_pyl (l : List Py) : lenL (pyl l) = l.length := by
  induction l with
  | nil => rfl
  | cons h t ih => simp [pyl, lenL, ih]; omega

@[simp] theorem subSumL_append (f : Py → Nat) :
    ∀ x y : PyL, subSumL f (x.append y) = subSumL f x + subSumL f y
  | .nil, y => by simp [PyL.append, subSumL]
  | .cons h t, y => by
      simp [PyL.append, subSumL, subSumL_append f t y]
      omega

@[simp] theorem cogL_append (lvl : Nat) :
    ∀ x y : PyL, cogL (x.append y) lvl = cogL x lvl + cogL y lvl
  | .nil, y => by simp [PyL.append, cogL]
  | .cons h t, y => by
      simp [PyL.append, cogL, cogL_append lvl t y]
      omega

theorem cogInc_mono (c : Py) {a b : Nat} (h : a ≤ b) :
    cogInc c a ≤ cogInc c b := by
  cases c <;> simp [cogInc] <;> omega

theorem cogNew_mono (c : Py) {a b : Nat} (h : a ≤ b) :
    cogNew c a ≤ cogNew c b := by
  cases c <;> simp [cogNew] <;> omega

mutual

/-- The walk `_cognitive_complexity_recursive` is monotone in the nesting level. -/
theorem cogP_mono : ∀ (p : Py) (a b : Nat), a ≤ b → cogP p a ≤ cogP p b
  | .module body, a, b, h => by
      simp only [cogP]
      have hi1 := cogL_mono body a b h
      omega
  | .functionDef nm args body decs returns ln el, a, b, h => by
      simp only [cogP]
      have hi1 := cogInc_mono args h
      have hi2 := cogP_mono args (cogNew args a) (cogNew args b) (cogNew_mono args h)
      have hi3 := cogL_mono body a b h
      have hi4 := cogL_mono decs a b h
      have hi5 := cogO_mono returns a b h
      omega
  | .asyncFunctionDef nm args body decs returns ln el, a, b, h => by
      simp only [cogP]
      have hi1 := cogInc_mono args h
      have hi2 := cogP_mono args (cogNew args a) (cogNew args b) (cogNew_mono args h)
      have hi3 := cogL_mono body a b h
      have hi4 := cogL_mono decs a b h
      have hi5 := cogO_mono returns a b h
      omega
  | .classDef nm bases body decs ln el, a, b, h => by
      simp only [cogP]
      have hi1 := cogL_mono bases a b h
      have hi2 := cogL_mono body a b h
      have hi3 := cogL_mono decs a b h
      omega
  | .ret value, a, b, h => by
      simp only [cogP]
      have hi1 := cogO_mono value a b h
      omega
  | .assign targets value ln, a, b, h => by
      simp only [cogP]
      have hi1 := cogL_mono targets a b h
      have hi2 := cogInc_mono value h
      have hi3 := cogP_mono value (cogNew value a) (cogNew value b) (cogNew_mono value h)
      omega
  | .annAssign target anno value ln, a, b, h => by
      simp only [cogP]
      have hi1 := cogInc_mono target h
      have hi2 := cogP_mono target (cogNew target a) (cogNew target b) (cogNew_mono target h)
      have hi3 := cogInc_mono anno h
      have hi4 := cogP_mono anno (cogNew anno a) (cogNew anno b) (cogNew_mono anno h)
      have hi5 := cogO_mono value a b h
      omega
  | .ifStmt test body orelse, a, b, h => by
      simp only [cogP]
      have hi1 := cogInc_mono test h
      have hi2 := cogP_mono test (cogNew test a) (cogNew test b) (cogNew_mono test h)
      have hi3 := cogL_mono body a b h
      have hi4 := cogL_mono orelse a b h
      omega
  | .whileStmt test body orelse, a, b, h => by
      simp only [cogP]
      have hi1 := cogInc_mono test h
      have hi2 := cogP_mono test (cogNew test a) (cogNew test b) (cogNew_mono test h)
      have hi3 := cogL_mono body a b h
      have hi4 := cogL_mono orelse a b h
      omega
  | .forStmt target iter body orelse, a, b, h => by
      simp only [cogP]
      have hi1 := cogInc_mono target h
      have hi2 := cogP_mono target (cogNew target a) (cogNew target b) (cogNew_mono target h)
      have hi3 := cogInc_mono iter h
      have hi4 := cogP_mono iter (cogNew iter a) (cogNew iter b) (cogNew_mono iter h)
      have hi5 := cogL_mono body a b h
      have hi6 := cogL_mono orelse a b h
      omega
  | .asyncForStmt target iter body orelse, a, b, h => by
      simp only [cogP]
      have hi1 := cogInc_mono target h
      have hi2 := cogP_mono target (cogNew target a) (cogNew target b) (cogNew_mono target h)
      have hi3 := cogInc_mono iter h
      have hi4 := cogP_mono iter (cogNew iter a) (cogNew iter b) (cogNew_mono iter h)
      have hi5 := cogL_mono body a b h
      have hi6 := cogL_mono orelse a b h
      omega
  | .withStmt items body, a, b, h => by
      simp only [cogP]
      have hi1 := cogL_mono items a b h
      have hi2 := cogL_mono body a b h
      omega
  | .asyncWithStmt items body, a, b, h => by
      simp only [cogP]
      have hi1 := cogL_mono items a b h
      have hi2 := cogL_mono body a b h
      omega
  | .tryStmt body handlers orelse finalbody, a, b, h => by
      simp only [cogP]
      have hi1 := cogL_mono body a b h
      have hi2 := cogL_mono handlers a b h
      have hi3 := cogL_mono orelse a b h
      have hi4 := cogL_mono finalbody a b h
      omega
  | .exceptHandler body, a, b, h => by
      simp only [cogP]
      have hi1 := cogL_mono body a b h
      omega
  | .assertStmt test msg, a, b, h => by
      simp only [cogP]
      have hi1 := cogInc_mono test h
      have hi2 := cogP_mono test (cogNew test a) (cogNew test b) (cogNew_mono test h)
      have hi3 := cogO_mono msg a b h
      omega
  | .importStmt names ln, a, b, h => by
      simp only [cogP]
      have hi1 := cogL_mono names a b h
      omega
  | .importFrom m names ln, a, b, h => by
      simp only [cogP]
      have hi1 := cogL_mono names a b h
      omega
  | .exprStmt value, a, b, h => by
      simp only [cogP]
      have hi1 := cogInc_mono value h
      have hi2 := cogP_mono value (cogNew value a) (cogNew value b) (cogNew_mono value h)
      omega
  | .passStmt, a, b, h => by simp [cogP]
  | .name id, a, b, h => by simp [cogP]
  | .constant v, a, b, h => by simp [cogP]
  | .boolOp op v1 v2 rest, a, b, h => by
      simp only [cogP]
      have hi1 := cogInc_mono v1 h
      have hi2 := cogP_mono v1 (cogNew v1 a) (cogNew v1 b) (cogNew_mono v1 h)
      have hi3 := cogInc_mono v2 h
      have hi4 := cogP_mono v2 (cogNew v2 a) (cogNew v2 b) (cogNew_mono v2 h)
      have hi5 := cogL_mono rest a b h
      omega
  | .binOp left op right, a, b, h => by
      simp only [cogP]
      have hi1 := cogInc_mono left h
      have hi2 := cogP_mono left (cogNew left a) (cogNew left b) (cogNew_mono left h)
      have hi3 := cogInc_mono right h
      have hi4 := cogP_mono right (cogNew right a) (cogNew right b) (cogNew_mono right h)
      omega
  | .compare left comparators, a, b, h => by
      simp only [cogP]
      have hi1 := cogInc_mono left h
      have hi2 := cogP_mono left (cogNew left a) (cogNew left b) (cogNew_mono left h)
      have hi3 := cogL_mono comparators a b h
      omega
  | .call func args, a, b, h => by
      simp only [cogP]
      have hi1 := cogInc_mono func h
      have hi2 := cogP_mono func (cogNew func a) (cogNew func b) (cogNew_mono func h)
      have hi3 := cogL_mono args a b h
      omega
  | .attributeE value attr, a, b, h => by
      simp only [cogP]
      have hi1 := cogInc_mono value h
      have hi2 := cogP_mono value (cogNew value a) (cogNew value b) (cogNew_mono value h)
      omega
  | .lambdaE args body, a, b, h => by
      simp only [cogP]
      have hi1 := cogInc_mono args h
      have hi2 := cogP_mono args (cogNew args a) (cogNew args b) (cogNew_mono args h)
      have hi3 := cogInc_mono body h
      have hi4 := cogP_mono body (cogNew body a) (cogNew body b) (cogNew_mono body h)
      omega
  | .listComp elt gens, a, b, h => by
      simp only [cogP]
      have hi1 := cogInc_mono elt h
      have hi2 := cogP_mono elt (cogNew elt a) (cogNew elt b) (cogNew_mono elt h)
      have hi3 := cogL_mono gens a b h
      omega
  | .setComp elt gens, a, b, h => by
      simp only [cogP]
      have hi1 := cogInc_mono elt h
      have hi2 := cogP_mono elt (cogNew elt a) (cogNew elt b) (cogNew_mono elt h)
      have hi3 := cogL_mono gens a b h
      omega
  | .dictComp key value gens, a, b, h => by
      simp only [cogP]
      have hi1 := cogInc_mono key h
      have hi2 := cogP_mono key (cogNew key a) (cogNew key b) (cogNew_mono key h)
      have hi3 := cogInc_mono value h
      have hi4 := cogP_mono value (cogNew value a) (cogNew value b) (cogNew_mono value h)
      have hi5 := cogL_mono gens a b h
      omega
  | .generatorExp elt gens, a, b, h => by
      simp only [cogP]
      have hi1 := cogInc_mono elt h
      have hi2 := cogP_mono elt (cogNew elt a) (cogNew elt b) (cogNew_mono elt h)
      have hi3 := cogL_mono gens a b h
      omega
  | .comprehension target iter ifs, a, b, h => by
      simp only [cogP]
      have hi1 := cogInc_mono target h
      have hi2 := cogP_mono target (cogNew target a) (cogNew target b) (cogNew_mono target h)
      have hi3 := cogInc_mono iter h
      have hi4 := cogP_mono iter (cogNew iter a) (cogNew iter b) (cogNew_mono iter h)
      have hi5 := cogL_mono ifs a b h
      omega
  | .argumentsNode args vararg kwonlyargs kw_defaults kwarg defaults, a, b, h => by
      simp only [cogP]
      have hi1 := cogL_mono args a b h
      have hi2 := cogO_mono vararg a b h
      have hi3 := cogL_mono kwonlyargs a b h
      have hi4 := cogOL_mono kw_defaults a b h
      have hi5 := cogO_mono kwarg a b h
      have hi6 := cogL_mono defaults a b h
      omega
  | .argNode arg anno, a, b, h => by
      simp only [cogP]
      have hi1 := cogO_mono anno a b h
      omega
  | .aliasNode n1 n2, a, b, h => by simp [cogP]
  | .withItem context_expr optional_vars, a, b, h => by
      simp only [cogP]
      have hi1 := cogInc_mono context_expr h
      have hi2 := cogP_mono context_expr (cogNew context_expr a) (cogNew context_expr b) (cogNew_mono context_expr h)
      have hi3 := cogO_mono optional_vars a b h
      omega

/-- List version of `cogP_mono`. -/
theorem cogL_mono : ∀ (l : PyL) (a b : Nat), a ≤ b → cogL l a ≤ cogL l b
  | .nil, a, b, h => by simp [cogL]
  | .cons hd tl, a, b, h => by
      simp only [cogL]
      have hi1 := cogInc_mono hd h
      have hi2 := cogP_mono hd (cogNew hd a) (cogNew hd b) (cogNew_mono hd h)
      have hi3 := cogL_mono tl a b h
      omega

/-- Option version of `cogP_mono`. -/
theorem cogO_mono : ∀ (o : PyO) (a b : Nat), a ≤ b → cogO o a ≤ cogO o b
  | .none, a, b, h => by simp [cogO]
  | .some x, a, b, h => by
      simp only [cogO]
      have hi1 := cogInc_mono x h
      have hi2 := cogP_mono x (cogNew x a) (cogNew x b) (cogNew_mono x h)
      omega

/-- Option-list version of `cogP_mono`. -/
theorem cogOL_mono : ∀ (l : PyOL) (a b : Nat), a ≤ b → cogOL l a ≤ cogOL l b
  | .nil, a, b, h => by simp [cogOL]
  | .cons hd tl, a, b, h => by
      simp only [cogOL]
      have hi1 := cogO_mono hd a b h
      have hi2 := cogOL_mono tl a b h
      omega

end

/-- Node `x` occurs in the subtree rooted at `t` (reflexive-transitive closure
of the child relation): the structural notion of one node being part of
another, independent of the breadth-first walk. -/
inductive Occurs : Py → Py → Prop where
  | refl (p : Py) : Occurs p p
  | child {x c p : Py} : Occurs x c → c ∈ children p → Occurs x p

theorem occurs_iff (x p : Py) :
    Occurs x p ↔ x = p ∨ ∃ c ∈ children p, Occurs x c := by
  constructor
  · intro h
    cases h with
    | refl => exact Or.inl rfl
    | child ho hc => exact Or.inr ⟨_, hc, ho⟩
  · intro h
    rcases h with rfl | ⟨c, hc, ho⟩
    · exact .refl _
    · exact .child ho hc

/-- The breadth-first walk of a queue enumerates exactly the nodes that
occur in some queue element. -/
theorem mem_walkW (q : List Py) (x : Py) :
    x ∈ walkW q ↔ ∃ t ∈ q, Occurs x t := by
  generalize hq : szSum q = n
  induction n using Nat.strong_induction_on generalizing q with
  | _ n ih =>
    cases q with
    | nil => simp
    | cons p q' =>
      subst hq
      rw [walkW_cons]
      have hlt : szSum (q' ++ children p) < szSum (p :: q') := by
        simp only [szSum_append, szSum_cons]
        have := szSum_children_lt p
        omega
      have IH := ih _ hlt (q' ++ children p) rfl
      simp only [List.mem_cons, IH, List.mem_append]
      constructor
      · rintro (rfl | ⟨t, ht | ht, ho⟩)
        · exact ⟨_, Or.inl rfl, .refl _⟩
        · exact ⟨t, Or.inr ht, ho⟩
        · exact ⟨p, Or.inl rfl, .child ho ht⟩
      · rintro ⟨t, rfl | ht, ho⟩
        · rcases (occurs_iff x t).mp ho with rfl | ⟨c, hc, ho2⟩
          · exact Or.inl rfl
          · exact Or.inr ⟨c, Or.inr hc, ho2⟩
        · exact Or.inr ⟨t, Or.inl ht, ho⟩

theorem mem_walk (p x : Py) : x ∈ walk p ↔ Occurs x p := by
  rw [walk_eq_walkW, mem_walkW]
  simp

/-- Prefix decomposition of the breadth-first walk: the queue itself is
emitted first, then the walk continues from all its children. -/
theorem walkW_append :
    ∀ a b : List Py,
      walkW (a ++ b) = a ++ walkW (b ++ a.flatMap children)
  | [], b => by simp
  | p :: a, b => by
      rw [List.cons_append, walkW_cons]
      have hassoc : a ++ b ++ children p = a ++ (b ++ children p) := by
        simp [List.append_assoc]
      rw [hassoc, walkW_append a (b ++ children p)]
      simp [List.append_assoc]

theorem contains_iff_mem {l : List Py} {a : Py} :
    l.contains a = true ↔ a ∈ l := by
  simp [List.contains, List.elem_iff]

/-- The characterisation of `_is_top_level_function` in terms of
structural occurrence: the function node is accepted exactly when it does
not occur inside any class-definition node of the tree. -/
theorem is_top_level_iff (tree f : Py) :
    is_top_level_function tree f = true ↔
      ¬ ∃ c, Occurs c tree ∧ isClassDefB c = true ∧ Occurs f c := by
  have key : ((walk tree).any fun n => isClassDefB n && (walk n).contains f)
      = true ↔ ∃ c, Occurs c tree ∧ isClassDefB c = true ∧ Occurs f c := by
    rw [List.any_eq_true]
    constructor
    · rintro ⟨n, hn, hb⟩
      rw [Bool.and_eq_true] at hb
      exact ⟨n, (mem_walk tree n).mp hn, hb.1,
        (mem_walk n f).mp (contains_iff_mem.mp hb.2)⟩
    · rintro ⟨c, hco, hcl, hfo⟩
      refine ⟨c, (mem_walk tree c).mpr hco, ?_⟩
      rw [Bool.and_eq_true]
      exact ⟨hcl, contains_iff_mem.mpr ((mem_walk c f).mpr hfo)⟩
  unfold is_top_level_function
  constructor
  · intro h hex
    have h2 := key.mpr hex
    rw [h2] at h
    exact absurd h (by simp)
  · intro h
    have hfalse :
        ((walk tree).any fun n => isClassDefB n && (walk n).contains f)
          = false := by
      cases hv : ((walk tree).any fun n => isClassDefB n && (walk n).contains f)
      · rfl
      · exact absurd (key.mp hv) h
    rw [hfalse]
    rfl

/-!
## Claim-level predicates and fixtures
-/

/-- Is this node an `ast.AsyncFunctionDef`? -/
def isAsyncFunctionDefB : Py → Bool
  | .asyncFunctionDef _ _ _ _ _ _ _ => true
  | _ => false

/-- Is this node an `ast.Assign`? -/
def isAssignB : Py → Bool
  | .assign _ _ _ => true
  | _ => false

/-- Is this node an `ast.Name`? -/
def isNameB : Py → Bool
  | .name _ => true
  | _ => false

/-- Is this node an import statement (`ast.Import` or `ast.ImportFrom`)? -/
def isImportB : Py → Bool
  | .importStmt _ _ => true
  | .importFrom _ _ _ => true
  | _ => false

/-- An `ast.arguments` node with no parameters at all. -/
def emptyArgs : Py := .argumentsNode .nil .none .nil .nil .none .nil

/-- A plain function definition with the given body and a trivial
signature. -/
def mkFun (body : PyL) : Py :=
  .functionDef "g" emptyArgs body .nil .none 1 Option.none

/-- Substring test on strings, via character lists (used to express what
an error message does or does not carry). -/
def strHas (hay pat : String) : Bool := go hay.data pat.data
where
  /-- Is `pat` a prefix of `l`? -/
  pre : List Char → List Char → Bool
    | _, [] => true
    | [], _ :: _ => false
    | a :: as, b :: bs => a == b && pre as bs
  /-- Does `pat` occur in `l` at any position? -/
  go : List Char → List Char → Bool
    | [], pat => pre [] pat
    | a :: as, pat => pre (a :: as) pat || go as pat

/-!
## C1 — concrete scenario

Embedding of `ast.parse` applied to

`def f(x: int, y: int = 2) -> int:\n    if x > 0:\n        return x + y\n    return y`
-/

/-- The `arguments` node of the C1 function. -/
def fxC1args : Py :=
  .argumentsNode
    (pyl [.argNode "x" (.some (.name "int")),
          .argNode "y" (.some (.name "int"))])
    .none .nil .nil .none (pyl [.constant (.int 2)])

/-- The C1 function definition node. -/
def fxC1fn : Py :=
  .functionDef "f" fxC1args
    (pyl [.ifStmt (.compare (.name "x") (pyl [.constant (.int 0)]))
            (pyl [.ret (.some (.binOp (.name "x") "+" (.name "y")))])
            (pyl []),
          .ret (.some (.name "y"))])
    .nil (.some (.name "int")) 1 (Option.some 4)

/-- The C1 module. -/
def fxC1mod : Py := .module (pyl [fxC1fn])

/-- C1: on the concrete source
`def f(x: int, y: int = 2) -> int: ...`, `parse_code` succeeds and
returns exactly one function, named `f`, with parameters
`x : int` (no default) and `y : int` (default `"2"`) in that order,
return annotation `int`, and complexity metrics
`cyclomatic_complexity = 2`, `num_branches = 1`, `num_loops = 0`,
`nesting_depth = 1`. -/
theorem c1_concrete_scenario :
    parse_code (.ok fxC1mod) = .ok (extract fxC1mod) ∧
    ((extract fxC1mod).functions.map fun r => r.name) = ["f"] ∧
    ((extract fxC1mod).functions.map fun r =>
        r.parameters.map fun p => (p.name, p.anno, p.default)) =
      [[("x", Option.some "int", Option.none),
        ("y", Option.some "int", Option.some "2")]] ∧
    ((extract fxC1mod).functions.map fun r => r.ret_anno) =
      [Option.some "int"] ∧
    ((extract fxC1mod).functions.map fun r =>
        r.complexity.cyclomatic_complexity) = [2] ∧
    ((extract fxC1mod).functions.map fun r =>
        r.complexity.num_branches) = [1] ∧
    ((extract fxC1mod).functions.map fun r =>
        r.complexity.num_loops) = [0] ∧
    ((extract fxC1mod).functions.map fun r =>
        r.complexity.nesting_depth) = [1] := by
  refine ⟨rfl, ?_, ?_, ?_, ?_, ?_, ?_, ?_⟩ <;> decide

/-!
## C8 — parameter default alignment
-/

/-- The `arguments` node of `f(a, b, c=1, d=2)`. -/
def fxC8args : Py :=
  .argumentsNode
    (pyl [.argNode "a" .none, .argNode "b" .none,
          .argNode "c" .none, .argNode "d" .none])
    .none .nil .nil .none
    (pyl [.constant (.int 1), .constant (.int 2)])

/-- C8: for `f(a, b, c=1, d=2)` the extracted parameters are `a`, `b`
with no default and `c`, `d` with defaults `"1"` and `"2"`, in source
order (defaults right-aligned over the trailing positional
parameters). -/
theorem c8_default_alignment :
    ((parse_parameters fxC8args).map fun p => (p.name, p.default)) =
      [("a", Option.none), ("b", Option.none),
       ("c", Option.some "1"), ("d", Option.some "2")] ∧
    ((parse_parameters fxC8args).map fun p => p.kind) =
      ["positional", "positional", "positional", "positional"] := by
  refine ⟨?_, ?_⟩ <;> decide

/-!
## C9 — metric bounds
-/

/-- C9: for every subtree, the computed metrics satisfy
`cyclomatic_complexity ≥ 1` and the remaining four metrics are
nonnegative.  (All five are ℕ-valued in the embedding; that is faithful
because every contribution the analyzer adds is nonnegative — a `BoolOp`
produced by `ast.parse` always has at least two operands, which the
`boolOp` constructor enforces.) -/
theorem c9_metric_bounds (node : Py) :
    1 ≤ (calculate_complexity node).cyclomatic_complexity ∧
    0 ≤ (calculate_complexity node).cognitive_complexity ∧
    0 ≤ (calculate_complexity node).nesting_depth ∧
    0 ≤ (calculate_complexity node).num_branches ∧
    0 ≤ (calculate_complexity node).num_loops := by
  refine ⟨?_, Nat.zero_le _, Nat.zero_le _, Nat.zero_le _, Nat.zero_le _⟩
  simp [calculate_complexity, cyclomatic_complexity]

/-!
## C10 — class attributes
-/

/-- The class body consisting of the single plain assignment `x = 5`
(line 2). -/
def fxC10body : PyL :=
  pyl [.assign (pyl [.name "x"]) (.constant (.int 5)) 2]

/-- A class whose body is the single plain assignment `x = 5`. -/
def fxC10assignCls : Py := .classDef "E" .nil fxC10body .nil 1 (Option.some 2)

/-- The annotated assignment `y: int = 5` (line 3). -/
def fxC10ann : Py :=
  .annAssign (.name "y") (.name "int") (.some (.constant (.int 5))) 3

/-- The attribute record produced for `x = 5`. -/
def fxC10rec : AttributeRecord :=
  { name := "x", line_number := 2, anno := Option.none }

/-- C10: attribute records come only from plain (`ast.Assign`)
statements whose targets are plain names, and every stored annotation is
absent.  Three universal parts: (i) every attribute record of every
class has an absent annotation and traces back to a plain assignment of
the class body having the record name as a plain-name target and the
record line number; (ii) inserting any statement that is not a plain
assignment — in particular an annotated assignment such as
`x: int = 5` — anywhere in a class body leaves the attribute list
unchanged, so such statements produce no record at all; (iii) an
assignment none of whose targets is a plain name produces no record. -/
theorem c10_class_attributes :
    (∀ (nm : String) (bases body decs : PyL) (ln : Nat)
        (el : Option Nat),
      ∀ a ∈ (parse_class (.classDef nm bases body decs ln el)).attributes,
        a.anno = Option.none ∧
        ∃ targets value ln2,
          (.assign targets value ln2) ∈ body.toL ∧
          (.name a.name) ∈ targets.toL ∧
          a.line_number = ln2) ∧
    (∀ (nm : String) (bases b1 b2 : PyL) (item : Py) (decs : PyL)
        (ln : Nat) (el : Option Nat),
      isAssignB item = false →
      (parse_class (.classDef nm bases (b1.append (.cons item b2)) decs
          ln el)).attributes =
        (parse_class (.classDef nm bases (b1.append b2) decs
          ln el)).attributes) ∧
    (∀ (targets : PyL) (ln2 : Nat),
      (∀ t ∈ targets.toL, isNameB t = false) →
      parse_class_attributes targets ln2 = []) := by
  refine ⟨?_, ?_, ?_⟩
  · intro nm bases body decs ln el a ha
    simp only [parse_class] at ha
    rw [List.mem_flatMap] at ha
    obtain ⟨item, hitem, hmem⟩ := ha
    cases item <;> simp [attrsOf] at hmem
    rename_i targets value ln2
    unfold parse_class_attributes at hmem
    rw [List.mem_filterMap] at hmem
    obtain ⟨t, ht, heq⟩ := hmem
    cases t <;> simp at heq
    rw [← heq]
    exact ⟨rfl, targets, value, ln2, hitem, ht, rfl⟩
  · intro nm bases b1 b2 item decs ln el hna
    simp only [parse_class]
    rw [toL_append, toL_append, List.flatMap_append, List.flatMap_append]
    simp only [PyL.toL_cons, List.flatMap_cons]
    have hnil : attrsOf item = [] := by
      cases item <;> simp_all [isAssignB, attrsOf]
    rw [hnil]
    simp
  · intro targets ln2 h
    unfold parse_class_attributes
    rw [List.filterMap_eq_nil_iff]
    intro t ht
    have := h t ht
    cases t <;> simp_all [isNameB]

/-- Witness for C10: part (i) applied to the class with body `x = 5`
and its attribute record; part (ii) applied to the insertion of the
annotated assignment `y: int = 5` after `x = 5` (the attribute list is
unchanged); part (iii) applied to the single target `self.x`, which is
not a plain name. -/
theorem c10_witness :
    (fxC10rec ∈ (parse_class fxC10assignCls).attributes ∧
      (fxC10rec.anno = Option.none ∧
        ∃ targets value ln2,
          (.assign targets value ln2) ∈ fxC10body.toL ∧
          (.name fxC10rec.name) ∈ targets.toL ∧
          fxC10rec.line_number = ln2)) ∧
    (parse_class (.classDef "D" .nil
        (fxC10body.append (.cons fxC10ann .nil)) .nil 1
        (Option.some 3))).attributes =
      (parse_class (.classDef "D" .nil (fxC10body.append .nil) .nil 1
        (Option.some 3))).attributes ∧
    parse_class_attributes (pyl [.attributeE (.name "self") "x"]) 4
      = [] :=
  ⟨⟨by decide,
    c10_class_attributes.1 "E" .nil fxC10body .nil 1 (Option.some 2)
      fxC10rec (by decide)⟩,
   c10_class_attributes.2.1 "D" .nil fxC10body .nil fxC10ann .nil 1
     (Option.some 3) (by decide),
   c10_class_attributes.2.2 (pyl [.attributeE (.name "self") "x"]) 4
     (by decide)⟩

/-!
## C7 — top-level async functions

`parse_code` matches only `ast.FunctionDef` when collecting top-level
functions; `ast.AsyncFunctionDef` is a distinct class in CPython, so
top-level async functions are silently dropped.  (Async methods are
collected, because `_parse_class` matches both classes.)
-/

/-- A top-level async function definition `async def g(): pass`. -/
def fxC7afn : Py :=
  .asyncFunctionDef "g" emptyArgs (pyl [.passStmt]) .nil .none 1
    (Option.some 2)

/-- A module containing only that async function. -/
def fxC7mod : Py := .module (pyl [fxC7afn])

/-- An async method `async def bar(): pass`. -/
def fxC7meth : Py :=
  .asyncFunctionDef "bar" emptyArgs (pyl [.passStmt]) .nil .none 2
    (Option.some 3)

/-- C7 counterexample: a module whose only statement is a top-level
async function definition — there is no class definition anywhere in the
tree — yet the extracted `functions` sequence is empty, contradicting
the claim that the async function is included with `is_async = true`. -/
theorem c7_counterexample :
    (extract fxC7mod).functions = [] ∧
    fxC7afn ∈ walk fxC7mod ∧
    isAsyncFunctionDefB fxC7afn = true ∧
    (walk fxC7mod).filter isClassDefB = [] := by
  refine ⟨by decide, by decide, by decide, by decide⟩

/-- C7 amended: a top-level async function definition is never included
in the `functions` sequence — every record there has
`is_async = false`, because only `ast.FunctionDef` nodes are collected —
while an async function definition that is a direct statement of a class
body does appear among the methods of that class, with `is_async = true`. -/
theorem c7_amended :
    (∀ (tree : Py), ∀ r ∈ (extract tree).functions,
      r.is_async = false) ∧
    (∀ (cnm : String) (bases cbody decs : PyL) (ln : Nat)
        (el : Option Nat) (m : Py),
      m ∈ cbody.toL → isAsyncFunctionDefB m = true →
      parse_function m ∈
          (parse_class (.classDef cnm bases cbody decs ln el)).methods ∧
        (parse_function m).is_async = true) := by
  constructor
  · intro tree r hr
    simp only [extract] at hr
    rw [List.mem_filterMap] at hr
    obtain ⟨n, hn, heq⟩ := hr
    cases n <;> simp [funOf] at heq
    obtain ⟨htop, hpar⟩ := heq
    rw [← hpar]
    rfl
  · intro cnm bases cbody decs ln el m hm hasync
    constructor
    · simp only [parse_class]
      rw [List.mem_filterMap]
      refine ⟨m, hm, ?_⟩
      cases m <;> simp [isAsyncFunctionDefB] at hasync ⊢
    · cases m <;> simp [isAsyncFunctionDefB] at hasync ⊢
      rfl

/-- A class `class C:` containing the async method `bar`. -/
def fxC7cls : Py :=
  .classDef "C" .nil (pyl [fxC7meth]) .nil 1 (Option.some 3)

/-- Witness for C7 amended: applied to the module with the lone
top-level async `g` (whose `functions` sequence is empty, so the
`is_async = false` statement holds for its sole — vacuous — range), and
to the class `C` with async method `bar`. -/
theorem c7_amended_witness :
    (∀ r ∈ (extract fxC1mod).functions, r.is_async = false) ∧
    (parse_function fxC7meth ∈ (parse_class fxC7cls).methods ∧
      (parse_function fxC7meth).is_async = true) :=
  ⟨fun r hr => c7_amended.1 fxC1mod r hr,
   c7_amended.2 "C" .nil (pyl [fxC7meth]) .nil 1 (Option.some 3)
     fxC7meth (by decide) (by decide)⟩

/-!
## C2 — the top-level filter

`_is_top_level_function` rejects a function only when it occurs inside a
class definition; a function nested inside another *function* passes the
filter and is collected.
-/

/-- The function `def inner(): pass`, nested inside `outer`. -/
def fxC2inner : Py :=
  .functionDef "inner" emptyArgs (pyl [.passStmt]) .nil .none 2
    (Option.some 2)

/-- The function `def outer():` containing `inner`. -/
def fxC2outer : Py :=
  .functionDef "outer" emptyArgs (pyl [fxC2inner]) .nil .none 1
    (Option.some 2)

/-- A module whose only statement is `outer`. -/
def fxC2mod : Py := .module (pyl [fxC2outer])

/-- C2 counterexample: `inner` is a function definition nested inside
the body of another function (it occurs properly inside the subtree
of `outer`), yet its record appears in the top-level `functions` sequence
of the parse result, contradicting the claim. -/
theorem c2_counterexample :
    ((extract fxC2mod).functions.map fun r => r.name) =
      ["outer", "inner"] ∧
    fxC2inner ∈ walk fxC2outer ∧
    fxC2inner ≠ fxC2outer ∧
    isFunctionDefB fxC2inner = true ∧
    parse_function fxC2inner ∈ (extract fxC2mod).functions := by
  refine ⟨by decide, by decide, by decide, by decide, by decide⟩

/-- C2 amended: every record in the top-level `functions` sequence comes
from a function-definition node that does not occur inside any class
definition of the tree; (functions nested inside other functions, but
not inside any class, are *not* excluded — see the counterexample). -/
theorem c2_amended (tree : Py) :
    ∀ r ∈ (extract tree).functions,
      ∃ n, Occurs n tree ∧ isFunctionDefB n = true ∧
        r = parse_function n ∧
        ¬∃ c, Occurs c tree ∧ isClassDefB c = true ∧ Occurs n c := by
  intro r hr
  simp only [extract] at hr
  rw [List.mem_filterMap] at hr
  obtain ⟨n, hn, heq⟩ := hr
  have hocc : Occurs n tree := (mem_walk tree n).mp hn
  cases n <;> simp [funOf] at heq
  obtain ⟨htop, hpar⟩ := heq
  exact ⟨_, hocc, rfl, hpar.symm, (is_top_level_iff tree _).mp htop⟩

/-- Witness for C2 amended: applied to the C1 module and the record of
`f`. -/
theorem c2_amended_witness :
    ∃ n, Occurs n fxC1mod ∧ isFunctionDefB n = true ∧
      parse_function fxC1fn = parse_function n ∧
      ¬∃ c, Occurs c fxC1mod ∧ isClassDefB c = true ∧ Occurs n c :=
  c2_amended fxC1mod (parse_function fxC1fn) (by decide)
/-!
## C3 — failure semantics

`parse_code` wraps its whole body in `try/except Exception` and re-raises
`Exception("Failed to parse code: " + str(e))`.  For a `SyntaxError`
raised by `ast.parse`, `str(e)` is the message followed by
`(<unknown>, line N)`: the line number is embedded in the message text,
but the exception is not a structured `ParseError`, and the column and
offending line text are dropped even when the parser provides them.
-/

/-- A syntax error with an available column offset and offending text. -/
def fxC3err : SyntaxErr :=
  { msg := "invalid syntax", lineno := 3, offset := Option.some 44,
    text := Option.some "y ==" }

/-- C3 counterexample: on a syntax error at line 3, column 44, with
offending text `y ==`, the raised exception carries only the message
string shown here — it contains the line number but neither the column
nor the offending line text, although both were available, contradicting
the claim that the error carries them when available. -/
theorem c3_counterexample :
    parse_code (.bad fxC3err) =
      .error "Failed to parse code: invalid syntax (<unknown>, line 3)" ∧
    fxC3err.offset = Option.some 44 ∧
    fxC3err.text = Option.some "y ==" ∧
    strHas "Failed to parse code: invalid syntax (<unknown>, line 3)"
      "44" = false ∧
    strHas "Failed to parse code: invalid syntax (<unknown>, line 3)"
      "y ==" = false ∧
    strHas "Failed to parse code: invalid syntax (<unknown>, line 3)"
      "3" = true := by
  refine ⟨rfl, rfl, rfl, by decide, by decide, by decide⟩

/-- C3 amended: `parse_code` fails exactly when the source text is
syntactically invalid; the failure is a generic exception whose message
embeds the error string of the parser — it contains the line number, but
not the column or offending line text — and once the initial parse has
succeeded, extraction is total and always returns a result. -/
theorem c3_amended :
    (∀ t : Py, parse_code (.ok t) = .ok (extract t)) ∧
    (∀ e : SyntaxErr,
      parse_code (.bad e) =
        .error ("Failed to parse code: " ++ e.pyStr) ∧
      ∃ pre post,
        "Failed to parse code: " ++ e.pyStr =
          pre ++ toString e.lineno ++ post) := by
  refine ⟨fun t => rfl, fun e => ⟨rfl,
    "Failed to parse code: " ++ e.msg ++ " (<unknown>, line ", ")", ?_⟩⟩
  simp [SyntaxErr.pyStr, String.append_assoc]

/-!
## C4 — cognitive nesting sensitivity
-/

theorem cogP_functionDef (nm : String) (args : Py) (body decs : PyL)
    (returns : PyO) (ln : Nat) (el : Option Nat) (lvl : Nat) :
    cogP (.functionDef nm args body decs returns ln el) lvl =
      (cogInc args lvl + cogP args (cogNew args lvl)) + cogL body lvl +
        cogL decs lvl + cogO returns lvl := rfl

theorem cogP_ifStmt (t : Py) (b o : PyL) (lvl : Nat) :
    cogP (.ifStmt t b o) lvl =
      (cogInc t lvl + cogP t (cogNew t lvl)) + cogL b lvl +
        cogL o lvl := rfl

theorem cogL_cons (h : Py) (t : PyL) (lvl : Nat) :
    cogL (.cons h t) lvl =
      (cogInc h lvl + cogP h (cogNew h lvl)) + cogL t lvl := rfl

theorem cogL_nil (lvl : Nat) : cogL .nil lvl = 0 := rfl

theorem cogO_none (lvl : Nat) : cogO .none lvl = 0 := rfl

theorem cogP_emptyArgs (lvl : Nat) : cogP emptyArgs lvl = 0 := rfl

theorem cogInc_emptyArgs (lvl : Nat) : cogInc emptyArgs lvl = 0 := rfl

theorem cogInc_ifStmt (t : Py) (b o : PyL) (lvl : Nat) :
    cogInc (.ifStmt t b o) lvl = 1 + lvl := rfl

theorem cogNew_ifStmt (t : Py) (b o : PyL) (lvl : Nat) :
    cogNew (.ifStmt t b o) lvl = lvl + 1 := rfl

/-- C4: for any two if statements (arbitrary tests `t1`, `t2` and inner
bodies `b1`, `b2`), the function with the two ifs in sequence has
strictly lower cognitive complexity than the function with the second if
nested at the end of the body of the first one, while the cyclomatic
complexities of the two functions are equal. -/
theorem c4_cognitive_nesting (t1 t2 : Py) (b1 b2 : PyL) :
    cognitive_complexity
        (mkFun (pyl [.ifStmt t1 b1 .nil, .ifStmt t2 b2 .nil])) <
      cognitive_complexity
        (mkFun (pyl [.ifStmt t1
          (b1.append (pyl [.ifStmt t2 b2 .nil])) .nil])) ∧
    cyclomatic_complexity
        (mkFun (pyl [.ifStmt t1 b1 .nil, .ifStmt t2 b2 .nil])) =
      cyclomatic_complexity
        (mkFun (pyl [.ifStmt t1
          (b1.append (pyl [.ifStmt t2 b2 .nil])) .nil])) := by
  constructor
  · simp only [cognitive_complexity, mkFun, pyl_cons, pyl_nil,
      cogP_functionDef, cogP_ifStmt, cogL_cons, cogL_nil, cogO_none,
      cogP_emptyArgs, cogInc_emptyArgs, cogInc_ifStmt, cogNew_ifStmt,
      cogL_append, Nat.zero_add, Nat.add_zero]
    have h1 := cogInc_mono t2 (show (1 : Nat) ≤ 1 + 1 by omega)
    have h2 := cogP_mono t2 (cogNew t2 1) (cogNew t2 (1 + 1))
      (cogNew_mono t2 (by omega))
    have h3 := cogL_mono b2 1 (1 + 1) (by omega)
    omega
  · simp only [cyclomatic_complexity, mkFun, emptyArgs, pyl_cons, pyl_nil,
      subSum, subSumL, subSumO, subSumOL, subSumL_append, cycContrib]
    omega

/-!
## C5 — cyclomatic additivity and floor
-/

/-- The function body made of the given if statements (test/body pairs),
in order, each with no `else`. -/
def mkSeqIfs (l : List (Py × PyL)) : PyL :=
  pyl (l.map fun tb => .ifStmt tb.1 tb.2 .nil)

theorem cyc_seq_ifs :
    ∀ l : List (Py × PyL),
      (∀ tb ∈ l,
        subSum cycContrib tb.1 = 0 ∧ subSumL cycContrib tb.2 = 0) →
      subSumL cycContrib (mkSeqIfs l) = l.length := by
  intro l
  induction l with
  | nil => intro _; rfl
  | cons tb rest ih =>
    intro h
    have h1 := h tb (List.mem_cons_self tb rest)
    have h2 := ih fun x hx => h x (List.mem_cons_of_mem _ hx)
    simp only [mkSeqIfs, List.map_cons, pyl_cons, subSumL, subSum,
      cycContrib, List.length_cons] at *
    omega

/-- C5: a function whose body is `n` sequential if statements, none of
whose tests or bodies contain further decision points, has cyclomatic
complexity `1 + n`; and a function whose body is a single `return` of a
decision-free expression has cyclomatic complexity `1`. -/
theorem c5_cyclomatic_additivity :
    (∀ l : List (Py × PyL),
      (∀ tb ∈ l,
        subSum cycContrib tb.1 = 0 ∧ subSumL cycContrib tb.2 = 0) →
      cyclomatic_complexity (mkFun (mkSeqIfs l)) = 1 + l.length) ∧
    (∀ e : Py, subSum cycContrib e = 0 →
      cyclomatic_complexity
        (mkFun (.cons (.ret (.some e)) .nil)) = 1) := by
  constructor
  · intro l h
    have hs := cyc_seq_ifs l h
    simp only [cyclomatic_complexity, mkFun, emptyArgs, subSum, subSumL,
      subSumO, subSumOL, cycContrib]
    omega
  · intro e he
    simp only [cyclomatic_complexity, mkFun, emptyArgs, subSum, subSumL,
      subSumO, subSumOL, cycContrib]
    omega

/-- Witness for C5: two concrete simple ifs give complexity 3, and a
lone `return x` gives complexity 1. -/
theorem c5_witness :
    cyclomatic_complexity (mkFun (mkSeqIfs
      [(.name "a", .cons .passStmt .nil), (.name "b", .nil)])) = 3 ∧
    cyclomatic_complexity
      (mkFun (.cons (.ret (.some (.name "x"))) .nil)) = 1 := by
  constructor
  · have := c5_cyclomatic_additivity.1
      [(.name "a", .cons .passStmt .nil), (.name "b", .nil)] (by decide)
    simpa using this
  · exact c5_cyclomatic_additivity.2 (.name "x") (by decide)
/-!
## C6 — ordering

`parse_code` collects imports, functions and classes in the order of the
breadth-first `ast.walk`: direct module-body statements come out in
source order, but nodes nested deeper (which the walk also visits, and
which the extractor also collects) are appended only after *all*
shallower nodes — breaking source order whenever a collected node is
nested.
-/

/-- The class `B`, nested in the body of `A`. -/
def fxC6clsB : Py := .classDef "B" .nil (pyl [.passStmt]) .nil 2 (Option.some 2)

/-- The class `A` containing the nested class `B`. -/
def fxC6clsA : Py := .classDef "A" .nil (pyl [fxC6clsB]) .nil 1 (Option.some 2)

/-- The class `C` after `A`. -/
def fxC6clsC : Py := .classDef "C" .nil (pyl [.passStmt]) .nil 3 (Option.some 3)

/-- The module `class A: (class B); class C`. -/
def fxC6mod : Py := .module (pyl [fxC6clsA, fxC6clsC])

/-- C6 counterexample: for the module `class A: (class B: pass)` followed
by `class C: pass` (source order A line 1, B line 2, C line 3), the
extracted `classes` sequence is `[A, C, B]` — the nested class `B` is
emitted after `C` by the breadth-first walk — so the sequence does not
preserve source order. -/
theorem c6_counterexample :
    ((extract fxC6mod).classes.map fun c => (c.name, c.line_number)) =
      [("A", 1), ("C", 3), ("B", 2)] ∧
    ¬ List.Pairwise (· ≤ ·)
        ((extract fxC6mod).classes.map fun c => c.line_number) := by
  refine ⟨by decide, by decide⟩

/-- The breadth-first walk of a module: the module node, then its body
statements in source order, then everything nested deeper. -/
theorem walk_module_decomp (body : PyL) :
    walk (.module body) =
      .module body :: (body.toL ++ walkW (body.toL.flatMap children)) := by
  rw [walk_eq_walkW, walkW_cons]
  simp only [List.nil_append]
  have h := walkW_append body.toL []
  rw [List.append_nil, List.nil_append] at h
  rw [show children (.module body) = body.toL from rfl, h]

/-- If the number of `p`-nodes in the whole walk equals the number of
`p`-nodes among the direct module-body statements, then no deeper node
satisfies `p`. -/
theorem filter_deeper_nil (body : PyL) (p : Py → Bool)
    (hmod : p (.module body) = false)
    (h : ((walk (.module body)).filter p).length =
      (body.toL.filter p).length) :
    ∀ n ∈ walkW (body.toL.flatMap children), p n = false := by
  rw [walk_module_decomp] at h
  simp [List.filter_cons, hmod, List.filter_append] at h
  exact h

/-- C6 amended: when every import, every class definition, and every
function definition that passes the top-level filter is a direct
module-body statement (counted with multiplicity over the whole walk),
the `imports`, `classes` and `functions` sequences are exactly the
extractions of the module body in source order.  In general (see the
counterexample) the extractor also collects nested occurrences, emitted
in breadth-first order after all module-level entries. -/
theorem c6_source_order_amended (body : PyL)
    (himp : ((walk (.module body)).filter isImportB).length =
      (body.toL.filter isImportB).length)
    (hcls : ((walk (.module body)).filter isClassDefB).length =
      (body.toL.filter isClassDefB).length)
    (hfun : ((walk (.module body)).filter (fun n =>
        isFunctionDefB n &&
          is_top_level_function (.module body) n)).length =
      (body.toL.filter (fun n =>
        isFunctionDefB n &&
          is_top_level_function (.module body) n)).length) :
    (extract (.module body)).imports = body.toL.flatMap importsOf ∧
    (extract (.module body)).classes = body.toL.filterMap classOf ∧
    (extract (.module body)).functions =
      body.toL.filterMap (funOf (.module body)) := by
  have himp' := filter_deeper_nil body isImportB rfl himp
  have hcls' := filter_deeper_nil body isClassDefB rfl hcls
  have hfun' := filter_deeper_nil body
    (fun n => isFunctionDefB n && is_top_level_function (.module body) n)
    rfl hfun
  refine ⟨?_, ?_, ?_⟩
  · simp only [extract]
    rw [walk_module_decomp, List.flatMap_cons, List.flatMap_append]
    have hdeep :
        (walkW (body.toL.flatMap children)).flatMap importsOf = [] := by
      rw [List.flatMap_eq_nil_iff]
      intro n hn
      have hiB := himp' n hn
      cases n
      case importStmt names ln => simp [isImportB] at hiB
      case importFrom m names ln => simp [isImportB] at hiB
      all_goals rfl
    rw [hdeep]
    simp [importsOf]
  · simp only [extract]
    rw [walk_module_decomp, List.filterMap_cons, List.filterMap_append]
    have hdeep :
        (walkW (body.toL.flatMap children)).filterMap classOf = [] := by
      rw [List.filterMap_eq_nil_iff]
      intro n hn
      have hcB := hcls' n hn
      cases n
      case classDef nm bases cb decs ln el => simp [isClassDefB] at hcB
      all_goals rfl
    rw [hdeep]
    simp [classOf]
  · simp only [extract]
    rw [walk_module_decomp, List.filterMap_cons, List.filterMap_append]
    have hdeep :
        (walkW (body.toL.flatMap children)).filterMap
          (funOf (.module body)) = [] := by
      rw [List.filterMap_eq_nil_iff]
      intro n hn
      have hfB := hfun' n hn
      cases n
      case functionDef nm args fb decs returns ln el =>
        simp only [isFunctionDefB, Bool.true_and] at hfB
        simp [funOf, hfB]
      all_goals rfl
    rw [hdeep]
    simp [funOf]
/-- A flat module: `import os`, `def foo`, `class C` (containing method
`bar`), `from x import y`, `def baz` — lines 1 to 6. -/
def fxC6Wbody : PyL := pyl [
  .importStmt (pyl [.aliasNode "os" Option.none]) 1,
  .functionDef "foo" emptyArgs (pyl [.passStmt]) .nil .none 2
    (Option.some 2),
  .classDef "C" .nil
    (pyl [.functionDef "bar" emptyArgs (pyl [.passStmt]) .nil .none 4
      (Option.some 4)])
    .nil 3 (Option.some 4),
  .importFrom (Option.some "x") (pyl [.aliasNode "y" Option.none]) 5,
  .functionDef "baz" emptyArgs (pyl [.passStmt]) .nil .none 6
    (Option.some 6)]

/-- Witness for C6 amended: on the flat module above (which satisfies
all three hypotheses, the method `bar` being filtered out by the
top-level check), the three sequences equal the module-body extraction
in source order. -/
theorem c6_source_order_witness :
    (extract (.module fxC6Wbody)).imports =
      fxC6Wbody.toL.flatMap importsOf ∧
    (extract (.module fxC6Wbody)).classes =
      fxC6Wbody.toL.filterMap classOf ∧
    (extract (.module fxC6Wbody)).functions =
      fxC6Wbody.toL.filterMap (funOf (.module fxC6Wbody)) :=
  c6_source_order_amended fxC6Wbody (by decide) (by decide) (by decide)
end DevToolBox
